import Mathlib

/-!
Verification of the Finance-bro backend core: portfolio valuation and
aggregation (services/portfolio.py), risk/diversification scoring,
the analysis result cache and overall-risk bucketing (services/analysis.py),
and the chat history windowing (services/chat.py).

Embedding conventions: Python Decimal values and float values are carried
as exact rationals; where the dynamic type of a value matters (Decimal and
float do not mix under Python arithmetic) a tagged numeric type is used and
the failing operation returns Except.error; where the default Decimal
context matters (the average-cost merge, whose division rounds to 28
significant digits) the context rounding is modelled explicitly.  Optional
fields are Option.  Python truthiness tests on numbers (zero is falsy) and
strings (empty is falsy) are modelled explicitly at each test site.
-/

/-- A market data price lookup: current price per symbol, absent when the
provider has no data (polygon_client.get_current_price). -/
abbrev PriceLookup := String → Option ℚ

/-- A company details sector lookup (polygon_client.get_company_details,
projected to the sector field used by the service). -/
abbrev SectorLookup := String → Option String

/-- models/portfolio.py StockHolding: the fields the valuation engine reads
and writes.  shares and purchase_price are validated gt 0 by the pydantic
model; the derived fields are Optional. -/
structure StockHolding where
  symbol : String
  shares : ℚ
  purchase_price : ℚ
  sector : Option String
  current_price : Option ℚ
  market_value : Option ℚ
  gain_loss : Option ℚ
  gain_loss_percentage : Option ℚ
deriving DecidableEq, Repr

/-- models/portfolio.py Portfolio, restricted to the fields the valuation
and scoring code touches. -/
structure Portfolio where
  stocks : List StockHolding
  total_value : Option ℚ
  total_cost : Option ℚ
  total_gain_loss : Option ℚ
  total_gain_loss_percentage : Option ℚ
deriving DecidableEq, Repr

/-- The price the service actually uses: get_current_price followed by the
Python truthiness guard if current_price, under which a price of 0 counts
as absent. -/
def truthyPrice (lookup : PriceLookup) (sym : String) : Option ℚ :=
  match lookup sym with
  | some p => if p = 0 then none else some p
  | none => none

/-- Market value assigned to a holding by _update_portfolio_values: current
price times shares when a (truthy) price is available, else the cost basis
shares times purchase_price. -/
def holdingMarketValue (lookup : PriceLookup) (s : StockHolding) : ℚ :=
  match truthyPrice lookup s.symbol with
  | some p => p * s.shares
  | none => s.shares * s.purchase_price

/-- The per-holding part of _update_portfolio_values (portfolio.py lines
270 to 283): set current_price and market_value from the lookup, recompute
gain_loss, and recompute gain_loss_percentage only when the cost basis is
positive. -/
def revalueHolding (lookup : PriceLookup) (s : StockHolding) : StockHolding :=
  let cp := truthyPrice lookup s.symbol
  let mv := holdingMarketValue lookup s
  let cost := s.purchase_price * s.shares
  { s with
    current_price := match cp with | some p => some p | none => s.current_price
    market_value := some mv
    gain_loss := some (mv - cost)
    gain_loss_percentage :=
      if 0 < cost then some ((mv - cost) / cost * 100) else s.gain_loss_percentage }

/-- Embeds _update_portfolio_values (portfolio.py lines 265 to 294): revalue every
holding and rebuild the portfolio totals; the gain/loss percentage is only
assigned when total_cost is positive. -/
def updatePortfolioValues (lookup : PriceLookup) (p : Portfolio) : Portfolio :=
  let tv := (p.stocks.map (holdingMarketValue lookup)).sum
  let tc := (p.stocks.map (fun s => s.purchase_price * s.shares)).sum
  { p with
    stocks := p.stocks.map (revalueHolding lookup)
    total_value := some tv
    total_cost := some tc
    total_gain_loss := some (tv - tc)
    total_gain_loss_percentage :=
      if 0 < tc then some ((tv - tc) / tc * 100) else p.total_gain_loss_percentage }

/-- Concrete lookup used by witnesses: AAPL quotes at 11, everything else
is unpriced. -/
def lookupW : PriceLookup := fun sym => if sym = "AAPL" then some 11 else none

/-- Concrete holding used by witnesses: 10 shares of AAPL bought at 10. -/
def holdingW : StockHolding :=
  { symbol := "AAPL", shares := 10, purchase_price := 10, sector := some "Tech"
    current_price := none, market_value := none, gain_loss := none
    gain_loss_percentage := none }

/-- Concrete one-holding portfolio used by witnesses. -/
def portW : Portfolio :=
  { stocks := [holdingW], total_value := none, total_cost := none
    total_gain_loss := none, total_gain_loss_percentage := none }

/-- Two empty portfolios that differ only in the stale percentage field. -/
def emptyPort42 : Portfolio :=
  { stocks := [], total_value := none, total_cost := none
    total_gain_loss := none, total_gain_loss_percentage := some 42 }

/-- Second empty portfolio with a different stale percentage. -/
def emptyPort7 : Portfolio :=
  { stocks := [], total_value := none, total_cost := none
    total_gain_loss := none, total_gain_loss_percentage := some 7 }

/-- Python round to the nearest integer with ties to even, as used by
round(x, 2) after scaling. -/
def roundHalfToEven (q : ℚ) : ℤ :=
  if q - ⌊q⌋ < 1/2 then ⌊q⌋
  else if 1/2 < q - ⌊q⌋ then ⌊q⌋ + 1
  else if ⌊q⌋ % 2 = 0 then ⌊q⌋ else ⌊q⌋ + 1

/-- Python round(x, 2): round to two decimal places, ties to even. -/
def pyRound2 (q : ℚ) : ℚ := (roundHalfToEven (q * 100) : ℚ) / 100

/-- Embeds the default CPython decimal context, which the source never
changes: every Decimal arithmetic operation rounds its exact result to 28
significant digits, ties to even.  Used on the average-cost merge path,
whose claim turns on this rounding. -/
def decRound28 (q : ℚ) : ℚ :=
  if q = 0 then 0
  else if q < 0 then
    -((roundHalfToEven (-q * 10 ^ ((27 : ℤ) - Int.log 10 (-q))) : ℚ)
        / 10 ^ ((27 : ℤ) - Int.log 10 (-q)))
  else
    (roundHalfToEven (q * 10 ^ ((27 : ℤ) - Int.log 10 q)) : ℚ)
      / 10 ^ ((27 : ℤ) - Int.log 10 q)

/-- Decimal addition under the 28-digit context. -/
def decAdd (a b : ℚ) : ℚ := decRound28 (a + b)

/-- Decimal subtraction under the 28-digit context. -/
def decSub (a b : ℚ) : ℚ := decRound28 (a - b)

/-- Decimal multiplication under the 28-digit context. -/
def decMul (a b : ℚ) : ℚ := decRound28 (a * b)

/-- Decimal division under the 28-digit context. -/
def decDiv (a b : ℚ) : ℚ := decRound28 (a / b)

/-- The sector set of _calculate_diversification_score: sectors of holdings
whose sector field is truthy (present and nonempty), without duplicates. -/
def distinctSectors (stocks : List StockHolding) : List String :=
  (stocks.filterMap (fun s =>
    match s.sector with
    | some t => if t = "" then none else some t
    | none => none)).dedup

/-- Embeds _calculate_diversification_score (portfolio.py lines 329 to 346):
min(100, holdings/20*50) plus min(50, distinct sectors*5), rounded to two
decimals; absent for an empty portfolio. -/
def calculateDiversificationScore (p : Portfolio) : Option ℚ :=
  if p.stocks.isEmpty then none
  else
    let num_stocks : ℚ := p.stocks.length
    let stock_score : ℚ := min 100 (num_stocks / 20 * 50)
    let sector_score : ℚ := min 50 ((distinctSectors p.stocks).length * 5)
    some (pyRound2 (stock_score + sector_score))

/-- Forty distinct sector names. -/
def sectorNames : List String :=
  ["s0","s1","s2","s3","s4","s5","s6","s7","s8","s9","s10","s11","s12","s13",
   "s14","s15","s16","s17","s18","s19","s20","s21","s22","s23","s24","s25",
   "s26","s27","s28","s29","s30","s31","s32","s33","s34","s35","s36","s37",
   "s38","s39"]

/-- One-share holding placed in the named sector. -/
def mkSectorHolding (sec : String) : StockHolding :=
  { symbol := sec, shares := 1, purchase_price := 1, sector := some sec
    current_price := none, market_value := none, gain_loss := none
    gain_loss_percentage := none }

/-- A 40-holding portfolio, every holding in its own sector. -/
def port40 : Portfolio :=
  { stocks := sectorNames.map mkSectorHolding
    total_value := none, total_cost := none, total_gain_loss := none
    total_gain_loss_percentage := none }

/-- Tagged Python number: the dynamic type of a value matters because
CPython refuses arithmetic between float and Decimal. -/
inductive PyNum where
  | pfloat : ℚ → PyNum
  | pdec : ℚ → PyNum
deriving DecidableEq, Repr

/-- Numeric value carried by a tagged Python number. -/
def PyNum.val : PyNum → ℚ
  | .pfloat q => q
  | .pdec q => q

/-- Python addition on tagged numbers: float and Decimal do not mix; the
mixed case raises TypeError. -/
def pyAdd : PyNum → PyNum → Except String PyNum
  | .pfloat a, .pfloat b => .ok (.pfloat (a + b))
  | .pdec a, .pdec b => .ok (.pdec (a + b))
  | .pfloat _, .pdec _ => .error "TypeError: unsupported operand types for +: float and Decimal"
  | .pdec _, .pfloat _ => .error "TypeError: unsupported operand types for +: Decimal and float"

/-- The sector value of a holding as read by the scorers: market_value when
truthy, else the cost basis (Python stock.market_value or fallback). -/
def truthyMarketValue (s : StockHolding) : ℚ :=
  match s.market_value with
  | some mv => if mv = 0 then s.shares * s.purchase_price else mv
  | none => s.shares * s.purchase_price

/-- The sector bucket of a holding: its sector when truthy, else Unknown
(Python stock.sector or "Unknown"). -/
def sectorOrUnknown (s : StockHolding) : String :=
  match s.sector with
  | some t => if t = "" then "Unknown" else t
  | none => "Unknown"

/-- Add a value into a sector accumulation dict (insertion ordered, update
in place on an existing key, append otherwise). -/
def bumpSector (m : List (String × ℚ)) (sec : String) (v : ℚ) : List (String × ℚ) :=
  if m.any (fun kv => kv.1 = sec) then
    m.map (fun kv => if kv.1 = sec then (kv.1, kv.2 + v) else kv)
  else m ++ [(sec, v)]

/-- The sectors dict built by _calculate_portfolio_risk. -/
def sectorValues (stocks : List StockHolding) : List (String × ℚ) :=
  stocks.foldl (fun m s => bumpSector m (sectorOrUnknown s) (truthyMarketValue s)) []

/-- Herfindahl concentration index over sector shares of value. -/
def concentrationIndex (total : ℚ) (m : List (String × ℚ)) : ℚ :=
  (m.map (fun kv => (kv.2 / total) ^ 2)).sum

/-- Embeds _calculate_portfolio_risk (portfolio.py lines 296 to 327): absent for an
empty portfolio; otherwise the code forms the float
(1 - diversification_factor) * 50 and the Decimal concentration_index * 50
and adds them, an operation Python rejects, so the result is the TypeError
rather than a score. -/
def calculatePortfolioRisk (p : Portfolio) : Except String (Option ℚ) :=
  if p.stocks.isEmpty then .ok none
  else
    let diversification_factor : ℚ := min 1 ((p.stocks.length : ℚ) / 10)
    let total_value : ℚ :=
      match p.total_value with
      | some tv => if tv = 0 then 1 else tv
      | none => 1
    let ci : ℚ := concentrationIndex total_value (sectorValues p.stocks)
    match pyAdd (.pfloat ((1 - diversification_factor) * 50)) (.pdec (ci * 50)) with
    | .ok v => .ok (some (pyRound2 v.val))
    | .error e => .error e

/-- A single-holding, single-sector portfolio: 1 share of AAPL at 100,
sector Tech, fully valued. -/
def portTech : Portfolio :=
  { stocks := [{ symbol := "AAPL", shares := 1, purchase_price := 100
                 sector := some "Tech", current_price := some 100
                 market_value := some 100, gain_loss := some 0
                 gain_loss_percentage := some 0 }]
    total_value := some 100, total_cost := some 100, total_gain_loss := some 0
    total_gain_loss_percentage := some 0 }

/-- Python string or fallback: an absent or empty first choice falls back. -/
def pyOrStr (a b : Option String) : Option String :=
  match a with
  | some s => if s = "" then b else some s
  | none => b

/-- models/portfolio.py StockHoldingCreate: the incoming lot. -/
structure NewLot where
  symbol : String
  shares : ℚ
  purchase_price : ℚ
  sector : Option String
deriving DecidableEq, Repr

/-- add_stock_to_portfolio lines 87 to 102: build the StockHolding for an
incoming lot, pricing it from the lookup and deriving market value and
gain/loss when a price is available. -/
def mkNewHolding (sectors : SectorLookup) (lookup : PriceLookup) (lot : NewLot) : StockHolding :=
  let cp := truthyPrice lookup lot.symbol
  let base : StockHolding :=
    { symbol := lot.symbol, shares := lot.shares, purchase_price := lot.purchase_price
      sector := pyOrStr lot.sector (sectors lot.symbol)
      current_price := cp, market_value := none, gain_loss := none
      gain_loss_percentage := none }
  match cp with
  | some p =>
    let mv := p * lot.shares
    let gl := mv - lot.purchase_price * lot.shares
    { base with
      market_value := some mv
      gain_loss := some gl
      gain_loss_percentage :=
        if 0 < lot.purchase_price then some (gl / (lot.purchase_price * lot.shares) * 100)
        else none }
  | none => base

/-- add_stock_to_portfolio lines 111 to 125: merge an incoming holding into
an existing one of the same symbol by summing shares and taking the share
weighted average purchase price, then re-deriving price dependent fields
from the latest lookup.  All values are Decimal, so every arithmetic
operation here rounds to the 28-digit context; in particular the average
price stores the rounded, not the exact, quotient. -/
def mergeHolding (existing_stock new_stock : StockHolding) : StockHolding :=
  let total_shares := decAdd existing_stock.shares new_stock.shares
  let total_cost := decAdd
    (decMul existing_stock.shares existing_stock.purchase_price)
    (decMul new_stock.shares new_stock.purchase_price)
  let avg_price := decDiv total_cost total_shares
  let mv : Option ℚ :=
    match new_stock.current_price with
    | some cp => if cp = 0 then none else some (decMul cp total_shares)
    | none => none
  let s1 := { existing_stock with
    shares := total_shares, purchase_price := avg_price
    current_price := new_stock.current_price, market_value := mv }
  match mv with
  | some m =>
    if m = 0 then s1
    else
      let gl := decSub m (decMul avg_price total_shares)
      { s1 with
        gain_loss := some gl
        gain_loss_percentage :=
          some (decMul (decDiv gl (decMul avg_price total_shares)) 100) }
  | none => s1

/-- add_stock_to_portfolio lines 104 to 128: merge into the first holding
with the same symbol, or append when the symbol is new. -/
def mergeIntoStocks : List StockHolding → StockHolding → List StockHolding
  | [], nh => [nh]
  | s :: rest, nh =>
    if s.symbol = nh.symbol then mergeHolding s nh :: rest
    else s :: mergeIntoStocks rest nh

/-- add_stock_to_portfolio (portfolio.py lines 76 to 142), storage aside:
build the new holding, merge or append it, then recompute all portfolio
values. -/
def addStockToPortfolio (sectors : SectorLookup) (lookup : PriceLookup)
    (p : Portfolio) (lot : NewLot) : Portfolio :=
  let nh := mkNewHolding sectors lookup lot
  updatePortfolioValues lookup { p with stocks := mergeIntoStocks p.stocks nh }

/-- First holding of a symbol in a stock list. -/
def findHolding (stocks : List StockHolding) (sym : String) : Option StockHolding :=
  stocks.find? (fun s => s.symbol = sym)

/-- Witness sector lookup: no sector data. -/
def sectW : SectorLookup := fun _ => none

/-- Witness lot: 2 more shares of AAPL at 20. -/
def aLot : NewLot := { symbol := "AAPL", shares := 2, purchase_price := 20, sector := none }

/-- Witness lot: 3 more shares of AAPL at 30. -/
def bLot : NewLot := { symbol := "AAPL", shares := 3, purchase_price := 30, sector := none }

/-- A cache entry: payload plus insertion timestamp (analysis.py
_cache_result stores a data/timestamp pair). -/
structure CacheEntry (α : Type) where
  data : α
  timestamp : ℚ
deriving DecidableEq, Repr

/-- The in-memory cache: an insertion-ordered keyed map, as a Python dict
is. -/
abbrev Cache (κ α : Type) := List (κ × CacheEntry α)

/-- Python dict assignment: update in place when the key exists, append
otherwise. -/
def dictSet {κ α : Type} [DecidableEq κ] (c : List (κ × α)) (k : κ) (v : α) :
    List (κ × α) :=
  if c.any (fun kv => kv.1 = k) then
    c.map (fun kv => if kv.1 = k then (k, v) else kv)
  else c ++ [(k, v)]

/-- Python del on a dict key. -/
def dictDel {κ α : Type} [DecidableEq κ] (c : List (κ × α)) (k : κ) : List (κ × α) :=
  c.filter (fun kv => kv.1 ≠ k)

/-- Embeds _get_from_cache (analysis.py lines 408 to 416): return the stored data
while the entry is younger than the TTL, otherwise delete the entry and
return absent.  The second component is the cache after the call. -/
def getFromCache {κ α : Type} [DecidableEq κ] (now ttl : ℚ) (c : Cache κ α) (k : κ) :
    Option α × Cache κ α :=
  match c.find? (fun kv => kv.1 = k) with
  | some kv =>
    if now - kv.2.timestamp < ttl then (some kv.2.data, c) else (none, dictDel c k)
  | none => (none, c)

/-- Embeds _cache_result (analysis.py lines 418 to 430): store the entry under the
current time, then if the dict now holds more than 100 entries delete the
20 oldest by timestamp (stable sort, first 20). -/
def cacheResult {κ α : Type} [DecidableEq κ] (now : ℚ) (c : Cache κ α) (k : κ) (v : α) :
    Cache κ α :=
  let c1 := dictSet c k (CacheEntry.mk v now)
  if 100 < c1.length then
    ((c1.insertionSort (fun a b => a.2.timestamp ≤ b.2.timestamp)).take 20).foldl
      (fun acc kv => dictDel acc kv.1) c1
  else c1

/-- Witness cache: 100 entries with distinct keys 0..99 inserted at
strictly increasing times 0..99. -/
def cacheW : Cache ℕ ℕ := (List.range 100).map (fun i => (i, CacheEntry.mk i (i : ℚ)))

/-- models/analysis.py RiskLevel. -/
inductive RiskLevel where
  | very_low
  | low
  | medium
  | high
  | very_high
deriving DecidableEq, Repr

/-- models/analysis.py RecommendationAction. -/
inductive RecommendationAction where
  | strong_sell
  | sell
  | hold
  | buy
  | strong_buy
deriving DecidableEq, Repr

/-- models/analysis.py StockAnalysis, restricted to the fields the
orchestrator computes from the reasoning output. -/
structure StockAnalysis where
  symbol : String
  company_name : String
  qualitative_analysis : String
  quantitative_analysis : String
  user_portfolio_fit : String
  recommendation : String
  recommendation_action : RecommendationAction
  risk_level : RiskLevel
  confidence_score : ℚ
  target_price : Option ℚ
deriving DecidableEq, Repr

/-- The risk_scores table of _calculate_overall_risk_level. -/
def risk_scores : RiskLevel → ℕ
  | .very_low => 1
  | .low => 2
  | .medium => 3
  | .high => 4
  | .very_high => 5

/-- Embeds _calculate_overall_risk_level (analysis.py lines 382 to 406): average
the ordinal rank of each analysis and re-bucket. -/
def calculateOverallRiskLevel (analyses : List StockAnalysis) : RiskLevel :=
  if analyses.isEmpty then .medium
  else
    let avg : ℚ :=
      ((analyses.map (fun a => (risk_scores a.risk_level : ℚ))).sum) / analyses.length
    if avg ≤ 3/2 then .very_low
    else if avg ≤ 5/2 then .low
    else if avg ≤ 7/2 then .medium
    else if avg ≤ 9/2 then .high
    else .very_high

/-- Modelled from the spec wording of claim C6: the ordinal rank of a risk
level, very_low = 1 up to very_high = 5. -/
def specOrdinal : RiskLevel → ℕ
  | .very_low => 1
  | .low => 2
  | .medium => 3
  | .high => 4
  | .very_high => 5

/-- Modelled from the spec wording of claim C6: the mean ordinal rank. -/
def specMeanOrdinal (analyses : List StockAnalysis) : ℚ :=
  ((analyses.map (fun a => (specOrdinal a.risk_level : ℚ))).sum) / analyses.length

/-- Modelled from the spec wording of claim C6: re-bucketing of a mean
ordinal with boundaries 1.5, 2.5, 3.5, 4.5. -/
def specRebucket (avg : ℚ) : RiskLevel :=
  if avg ≤ 3/2 then .very_low
  else if avg ≤ 5/2 then .low
  else if avg ≤ 7/2 then .medium
  else if avg ≤ 9/2 then .high
  else .very_high

/-- Minimal analysis value carrying a given risk level. -/
def mkRiskAnalysis (r : RiskLevel) : StockAnalysis :=
  { symbol := "X", company_name := "X", qualitative_analysis := "q"
    quantitative_analysis := "q", user_portfolio_fit := "q", recommendation := "q"
    recommendation_action := .hold, risk_level := r, confidence_score := 1
    target_price := none }

/-- The structured reasoning output (analysis.py FinancialAnalysisOutput). -/
structure FinancialAnalysisOutput where
  qualitative_analysis : String
  quantitative_analysis : String
  user_portfolio_fit : String
  recommendation : String
  recommendation_action : RecommendationAction
  risk_level : RiskLevel
  confidence_score : ℚ
  target_price : Option ℚ
deriving DecidableEq, Repr

/-- Embeds _create_fallback_analysis (analysis.py lines 333 to 344). -/
def createFallbackAnalysis (symbol company_name : String) : FinancialAnalysisOutput :=
  { qualitative_analysis := "Limited news data available for " ++ company_name
      ++ " (" ++ symbol ++ "). General market conditions should be considered."
    quantitative_analysis := "Recent price data for " ++ symbol
      ++ " shows normal market fluctuations. More detailed analysis requires additional data."
    user_portfolio_fit := "This stock\x27s fit with your portfolio depends on your current holdings and diversification goals."
    recommendation := "Hold position in " ++ symbol
      ++ " until more comprehensive data is available for proper analysis."
    recommendation_action := .hold
    risk_level := .medium
    confidence_score := 3/10
    target_price := none }

/-- Embeds _perform_rag_analysis (analysis.py lines 267 to 273), abstracted over
the reasoning collaborator result: its failure is caught and replaced by
the fallback output. -/
def performRagAnalysis (llmResult : Except String FinancialAnalysisOutput)
    (symbol company_name : String) : FinancialAnalysisOutput :=
  match llmResult with
  | .ok r => r
  | .error _ => createFallbackAnalysis symbol company_name

/-- analyze_stock step 5 (analysis.py lines 78 to 91): wrap the reasoning
output into a StockAnalysis; a falsy (absent or zero) target price becomes
absent. -/
def buildStockAnalysis (symbol company_name : String) (r : FinancialAnalysisOutput) :
    StockAnalysis :=
  { symbol := symbol, company_name := company_name
    qualitative_analysis := r.qualitative_analysis
    quantitative_analysis := r.quantitative_analysis
    user_portfolio_fit := r.user_portfolio_fit
    recommendation := r.recommendation
    recommendation_action := r.recommendation_action
    risk_level := r.risk_level
    confidence_score := r.confidence_score
    target_price :=
      match r.target_price with
      | some tp => if tp = 0 then none else some tp
      | none => none }

/-- models/analysis.py ChatMessage, restricted to role and content. -/
structure ChatMessage where
  role : String
  content : String
deriving DecidableEq, Repr

/-- Python slice l[-n:]: the last n elements (all of them when fewer). -/
def lastN {α : Type} (n : ℕ) (l : List α) : List α := l.drop (l.length - n)

/-- The history argument _generate_ai_response passes to the prompt builder
(chat.py line 149): session.messages[-6:]. -/
def recentMessagesArg (messages : List ChatMessage) : List ChatMessage :=
  lastN 6 messages

/-- One line of the rendered conversation history (chat.py line 203). -/
def historyLine (m : ChatMessage) : String :=
  m.role.capitalize ++ ": " ++ m.content ++ "\n"

/-- Embeds _create_chat_prompt history portion (chat.py lines 200 to 204): render
every passed message except the last, which is the in-flight user message. -/
def conversationHistory (recent_messages : List ChatMessage) : String :=
  (recent_messages.dropLast.map historyLine).foldl (fun a b => a ++ b) ""

/-- models/portfolio.py StockHoldingUpdate, restricted to the fields the
update path reads. -/
structure StockHoldingUpdate where
  shares : Option ℚ
  purchase_price : Option ℚ
  sector : Option String
deriving DecidableEq, Repr

/-- update_stock_in_portfolio lines 160 to 178: apply the truthy update
fields, then refresh price derived fields when a price is available. -/
def applyStockUpdate (lookup : PriceLookup) (u : StockHoldingUpdate)
    (s : StockHolding) : StockHolding :=
  let s1 := { s with
    shares := match u.shares with
      | some v => if v = 0 then s.shares else v
      | none => s.shares
    purchase_price := match u.purchase_price with
      | some v => if v = 0 then s.purchase_price else v
      | none => s.purchase_price
    sector := match u.sector with
      | some t => if t = "" then s.sector else some t
      | none => s.sector }
  match truthyPrice lookup s.symbol with
  | some p =>
    let mv := p * s1.shares
    let gl := mv - s1.purchase_price * s1.shares
    { s1 with
      current_price := some p
      market_value := some mv
      gain_loss := some gl
      gain_loss_percentage :=
        if 0 < s1.purchase_price then some (gl / (s1.purchase_price * s1.shares) * 100)
        else s1.gain_loss_percentage }
  | none => s1

/-- update_stock_in_portfolio lines 150 to 158: locate the first holding
with the symbol; absent when no holding matches. -/
def updateFirstStock : List StockHolding → String → (StockHolding → StockHolding)
    → Option (List StockHolding)
  | [], _, _ => none
  | s :: rest, sym, f =>
    if s.symbol = sym then some (f s :: rest)
    else
      match updateFirstStock rest sym f with
      | some rest2 => some (s :: rest2)
      | none => none

/-- update_stock_in_portfolio (portfolio.py lines 144 to 192), storage
aside: absent when the symbol is not held, otherwise the updated and
revalued portfolio. -/
def updateStockInPortfolio (lookup : PriceLookup) (p : Portfolio) (sym : String)
    (u : StockHoldingUpdate) : Option Portfolio :=
  match updateFirstStock p.stocks sym (applyStockUpdate lookup u) with
  | none => none
  | some stocks2 => some (updatePortfolioValues lookup { p with stocks := stocks2 })

/-- remove_stock_from_portfolio (portfolio.py lines 194 to 215), storage
aside: filter the symbol out and revalue; the result is present whether or
not the symbol was held. -/
def removeStockFromPortfolio (lookup : PriceLookup) (p : Portfolio) (sym : String) :
    Option Portfolio :=
  some (updatePortfolioValues lookup
    { p with stocks := p.stocks.filter (fun s => s.symbol ≠ sym) })

/-- Empty holding update used by the claim C9 witness. -/
def updW : StockHoldingUpdate := { shares := none, purchase_price := none, sector := none }

/-- Witness chat messages. -/
def msgA : ChatMessage := { role := "user", content := "hello" }

/-- Second witness chat message. -/
def msgB : ChatMessage := { role := "assistant", content := "hi" }

/-- Third witness chat message, the in-flight one. -/
def msgC : ChatMessage := { role := "user", content := "how is AAPL" }


/-- Claim C2: after revaluation every holding has market_value equal to
current price times shares when a price is available and cost basis
otherwise, gain_loss is exactly market_value minus cost basis, and the
portfolio totals are the sums over all holdings with total_gain_loss equal
to total_value minus total_cost. -/
theorem revalue_values_spec (lookup : PriceLookup) (p : Portfolio) :
    ((updatePortfolioValues lookup p).stocks = p.stocks.map (revalueHolding lookup))
    ∧ (∀ s : StockHolding, (revalueHolding lookup s).market_value = some (holdingMarketValue lookup s))
    ∧ (∀ s : StockHolding, ∀ q : ℚ, truthyPrice lookup s.symbol = some q →
        (revalueHolding lookup s).market_value = some (q * s.shares)
        ∧ (revalueHolding lookup s).current_price = some q)
    ∧ (∀ s : StockHolding, truthyPrice lookup s.symbol = none →
        (revalueHolding lookup s).market_value = some (s.shares * s.purchase_price))
    ∧ (∀ s : StockHolding, (revalueHolding lookup s).gain_loss =
        some (holdingMarketValue lookup s - s.purchase_price * s.shares))
    ∧ (updatePortfolioValues lookup p).total_value
        = some ((p.stocks.map (holdingMarketValue lookup)).sum)
    ∧ (updatePortfolioValues lookup p).total_cost
        = some ((p.stocks.map (fun s => s.purchase_price * s.shares)).sum)
    ∧ (updatePortfolioValues lookup p).total_gain_loss
        = some ((p.stocks.map (holdingMarketValue lookup)).sum
            - (p.stocks.map (fun s => s.purchase_price * s.shares)).sum) := by
  refine ⟨rfl, fun s => rfl, fun s q hq => ⟨?_, ?_⟩, fun s hn => ?_, fun s => rfl, rfl, rfl, rfl⟩
  · simp only [revalueHolding, holdingMarketValue, hq]
  · simp only [revalueHolding, hq]
  · simp only [revalueHolding, holdingMarketValue, hn]

/-- Witness for claim C2 at a concrete portfolio: the AAPL holding revalues
to 110 with gain 10, and the totals reconcile. -/
theorem revalue_values_spec_witness :
    (revalueHolding lookupW holdingW).market_value = some 110
    ∧ (revalueHolding lookupW holdingW).gain_loss = some 10
    ∧ (updatePortfolioValues lookupW portW).total_gain_loss = some 10 := by
  obtain ⟨-, -, h3, -, h5, -, -, h8⟩ := revalue_values_spec lookupW portW
  refine ⟨?_, ?_, ?_⟩
  · exact ((h3 holdingW 11 (by decide)).1).trans (by norm_num [holdingW])
  · exact (h5 holdingW).trans (by norm_num [holdingMarketValue, truthyPrice, holdingW, lookupW])
  · exact h8.trans (by norm_num [holdingMarketValue, truthyPrice, holdingW, portW, lookupW])

/-- Claim C10: on a portfolio with no holdings, revaluation zeroes the three
totals but leaves total_gain_loss_percentage untouched, since that field is
only recomputed when total_cost is positive. -/
theorem revalue_empty_portfolio (lookup : PriceLookup) (p : Portfolio)
    (h : p.stocks = []) :
    (updatePortfolioValues lookup p).total_value = some 0
    ∧ (updatePortfolioValues lookup p).total_cost = some 0
    ∧ (updatePortfolioValues lookup p).total_gain_loss = some 0
    ∧ (updatePortfolioValues lookup p).total_gain_loss_percentage
        = p.total_gain_loss_percentage := by
  simp [updatePortfolioValues, h]

/-- Witness for claim C10: two portfolios with identical (empty) holdings
revalue to different percentage fields, so the field is not a function of
the holdings. -/
theorem revalue_empty_portfolio_witness :
    (updatePortfolioValues lookupW emptyPort42).total_gain_loss_percentage = some 42
    ∧ (updatePortfolioValues lookupW emptyPort7).total_gain_loss_percentage = some 7
    ∧ emptyPort42.stocks = emptyPort7.stocks
    ∧ (updatePortfolioValues lookupW emptyPort42).total_value = some 0 := by
  refine ⟨?_, ?_, rfl, ?_⟩
  · exact (revalue_empty_portfolio lookupW emptyPort42 rfl).2.2.2
  · exact (revalue_empty_portfolio lookupW emptyPort7 rfl).2.2.2
  · exact (revalue_empty_portfolio lookupW emptyPort42 rfl).1

/-- Claim C1 (failing input): for 40 holdings spread over 40 distinct
sectors the code yields a diversification score of 150, because the stock
component is capped at 100 rather than the documented 50, so the total is
not bounded by 100. -/
theorem diversification_score_exceeds_100 :
    calculateDiversificationScore port40 = some 150
    ∧ ¬ (150 : ℚ) ≤ 100 := by
  constructor
  · have hsec : (distinctSectors port40.stocks).length = 40 := by
      simp [port40, sectorNames, distinctSectors, mkSectorHolding]
    have hlen : port40.stocks.length = 40 := by simp [port40, sectorNames]
    have hne : port40.stocks.isEmpty = false := by simp [port40, sectorNames]
    rw [calculateDiversificationScore, hne, hlen, hsec]
    norm_num [pyRound2, roundHalfToEven]
  · norm_num

/-- Claim C5 (failing behaviour): for every portfolio with at least one
holding the risk computation raises TypeError instead of producing the
documented score, because the diversification term is a float while the
concentration term is a Decimal. -/
theorem risk_score_type_error (p : Portfolio) (h : p.stocks ≠ []) :
    calculatePortfolioRisk p
      = .error "TypeError: unsupported operand types for +: float and Decimal" := by
  have hne : p.stocks.isEmpty = false := by
    cases hs : p.stocks with
    | nil => exact absurd hs h
    | cons a l => simp [hs]
  simp [calculatePortfolioRisk, hne, pyAdd]

/-- Witness for claim C5: the concrete single-holding Tech portfolio, which
the claim says should score 95, instead produces the TypeError. -/
theorem risk_score_type_error_witness :
    calculatePortfolioRisk portTech
      = .error "TypeError: unsupported operand types for +: float and Decimal" :=
  risk_score_type_error portTech (by decide)

theorem revalueHolding_shares (lookup : PriceLookup) (s : StockHolding) :
    (revalueHolding lookup s).shares = s.shares := rfl

theorem revalueHolding_purchase_price (lookup : PriceLookup) (s : StockHolding) :
    (revalueHolding lookup s).purchase_price = s.purchase_price := rfl

theorem revalueHolding_symbol (lookup : PriceLookup) (s : StockHolding) :
    (revalueHolding lookup s).symbol = s.symbol := rfl

theorem mkNewHolding_symbol (sectors : SectorLookup) (lookup : PriceLookup) (lot : NewLot) :
    (mkNewHolding sectors lookup lot).symbol = lot.symbol := by
  unfold mkNewHolding
  cases truthyPrice lookup lot.symbol <;> rfl

theorem mkNewHolding_shares (sectors : SectorLookup) (lookup : PriceLookup) (lot : NewLot) :
    (mkNewHolding sectors lookup lot).shares = lot.shares := by
  unfold mkNewHolding
  cases truthyPrice lookup lot.symbol <;> rfl

theorem mkNewHolding_purchase_price (sectors : SectorLookup) (lookup : PriceLookup) (lot : NewLot) :
    (mkNewHolding sectors lookup lot).purchase_price = lot.purchase_price := by
  unfold mkNewHolding
  cases truthyPrice lookup lot.symbol <;> rfl

theorem mergeHolding_symbol (ex nh : StockHolding) :
    (mergeHolding ex nh).symbol = ex.symbol := by
  cases h : nh.current_price with
  | none => simp [mergeHolding, h]
  | some cp =>
    by_cases h0 : cp = 0
    · simp [mergeHolding, h, h0]
    · by_cases h2 : decMul cp (decAdd ex.shares nh.shares) = 0 <;>
        simp [mergeHolding, h, h0, h2]

theorem mergeHolding_shares (ex nh : StockHolding) :
    (mergeHolding ex nh).shares = decAdd ex.shares nh.shares := by
  cases h : nh.current_price with
  | none => simp [mergeHolding, h]
  | some cp =>
    by_cases h0 : cp = 0
    · simp [mergeHolding, h, h0]
    · by_cases h2 : decMul cp (decAdd ex.shares nh.shares) = 0 <;>
        simp [mergeHolding, h, h0, h2]

theorem mergeHolding_purchase_price (ex nh : StockHolding) :
    (mergeHolding ex nh).purchase_price
      = decDiv
          (decAdd (decMul ex.shares ex.purchase_price)
            (decMul nh.shares nh.purchase_price))
          (decAdd ex.shares nh.shares) := by
  cases h : nh.current_price with
  | none => simp [mergeHolding, h]
  | some cp =>
    by_cases h0 : cp = 0
    · simp [mergeHolding, h, h0]
    · by_cases h2 : decMul cp (decAdd ex.shares nh.shares) = 0 <;>
        simp [mergeHolding, h, h0, h2]

theorem mergeIntoStocks_split (pre post : List StockHolding) (e nh : StockHolding)
    (hpre : ∀ s ∈ pre, s.symbol ≠ nh.symbol) (hsym : e.symbol = nh.symbol) :
    mergeIntoStocks (pre ++ e :: post) nh = pre ++ mergeHolding e nh :: post := by
  induction pre with
  | nil => simp [mergeIntoStocks, hsym]
  | cons a l ih =>
    have ha : a.symbol ≠ nh.symbol := hpre a (by simp)
    simp only [List.cons_append, mergeIntoStocks, if_neg ha, List.cons.injEq, true_and]
    exact ih (fun s hs => hpre s (by simp [hs]))

theorem addStock_stocks (sectors : SectorLookup) (lookup : PriceLookup)
    (p : Portfolio) (lot : NewLot) (pre post : List StockHolding) (e : StockHolding)
    (hsplit : p.stocks = pre ++ e :: post)
    (hpre : ∀ s ∈ pre, s.symbol ≠ lot.symbol)
    (hsym : e.symbol = lot.symbol) :
    (addStockToPortfolio sectors lookup p lot).stocks
      = pre.map (revalueHolding lookup)
        ++ revalueHolding lookup (mergeHolding e (mkNewHolding sectors lookup lot))
          :: post.map (revalueHolding lookup) := by
  have hnh : (mkNewHolding sectors lookup lot).symbol = lot.symbol :=
    mkNewHolding_symbol sectors lookup lot
  have hm : mergeIntoStocks p.stocks (mkNewHolding sectors lookup lot)
      = pre ++ mergeHolding e (mkNewHolding sectors lookup lot) :: post := by
    rw [hsplit]
    exact mergeIntoStocks_split pre post e _ (fun s hs => by rw [hnh]; exact hpre s hs)
      (by rw [hnh, hsym])
  simp [addStockToPortfolio, updatePortfolioValues, hm]

theorem findHolding_split (pre post : List StockHolding) (x : StockHolding) (sym : String)
    (hpre : ∀ s ∈ pre, s.symbol ≠ sym) (hx : x.symbol = sym) :
    findHolding (pre ++ x :: post) sym = some x := by
  unfold findHolding
  rw [List.find?_append]
  have h1 : pre.find? (fun s => decide (s.symbol = sym)) = none := by
    rw [List.find?_eq_none]
    intro a ha
    simp [hpre a ha]
  rw [h1]
  simp [List.find?_cons, hx]

theorem dictSet_fresh {κ α : Type} [DecidableEq κ] (c : List (κ × α)) (k : κ) (v : α)
    (h : ∀ kv ∈ c, kv.1 ≠ k) : dictSet c k v = c ++ [(k, v)] := by
  unfold dictSet
  have : c.any (fun kv => kv.1 = k) = false := by
    simp only [List.any_eq_false, decide_eq_true_eq]
    exact h
  rw [this]
  simp

theorem dictDel_head {κ α : Type} [DecidableEq κ] (x : κ × α) (l : List (κ × α))
    (h : ∀ kv ∈ l, kv.1 ≠ x.1) : dictDel (x :: l) x.1 = l := by
  unfold dictDel
  rw [List.filter_cons_of_neg (by simp)]
  exact List.filter_eq_self.mpr (fun a ha => by simp [h a ha])

theorem foldl_dictDel_front {κ β : Type} [DecidableEq κ] :
    ∀ (pre suf : List (κ × β)), ((pre ++ suf).map Prod.fst).Nodup →
    pre.foldl (fun acc kv => dictDel acc kv.1) (pre ++ suf) = suf := by
  intro pre
  induction pre with
  | nil => intro suf _; rfl
  | cons x l ih =>
    intro suf hnodup
    rw [List.foldl_cons]
    have hx : x.1 ∉ (l ++ suf).map Prod.fst := by
      have := hnodup
      rw [List.cons_append, List.map_cons, List.nodup_cons] at this
      exact this.1
    have hdel : dictDel ((x :: l) ++ suf) x.1 = l ++ suf := by
      rw [List.cons_append]
      apply dictDel_head
      intro kv hkv hbad
      exact hx (List.mem_map.mpr ⟨kv, hkv, hbad⟩)
    rw [hdel]
    apply ih
    have := hnodup
    rw [List.cons_append, List.map_cons, List.nodup_cons] at this
    exact this.2

/-- Claim C4: with distinct keys, strictly increasing insertion timestamps,
a fresh key and a current time after every stored timestamp, putting then
getting within the TTL returns the stored value; getting at or past the TTL
returns absent and removes the entry; and when the cache already holds 100
entries the put evicts exactly the 20 oldest entries and retains the new
one. -/
theorem cache_ttl_and_eviction {κ α : Type} [DecidableEq κ]
    (c : Cache κ α) (k : κ) (v : α) (now ttl t : ℚ)
    (hnodup : (c.map Prod.fst).Nodup)
    (hfresh : ∀ kv ∈ c, kv.1 ≠ k)
    (hsorted : c.Pairwise (fun a b => a.2.timestamp < b.2.timestamp))
    (hpast : ∀ kv ∈ c, kv.2.timestamp < now) :
    (t - now < ttl →
      (getFromCache t ttl (cacheResult now c k v) k).1 = some v)
    ∧ (ttl ≤ t - now →
      (getFromCache t ttl (cacheResult now c k v) k).1 = none
      ∧ ∀ kv ∈ (getFromCache t ttl (cacheResult now c k v) k).2, kv.1 ≠ k)
    ∧ (c.length = 100 →
      cacheResult now c k v = c.drop 20 ++ [(k, CacheEntry.mk v now)]) := by
  set e : CacheEntry α := CacheEntry.mk v now with he
  have hset : dictSet c k e = c ++ [(k, e)] := dictSet_fresh c k e hfresh
  have hsortedc1 : List.Sorted (fun a b : κ × CacheEntry α => a.2.timestamp ≤ b.2.timestamp)
      (c ++ [(k, e)]) := by
    show List.Pairwise _ (c ++ [(k, e)])
    rw [List.pairwise_append]
    refine ⟨hsorted.imp (fun h => le_of_lt h), List.pairwise_singleton _ _, ?_⟩
    intro a ha b hb
    rw [List.mem_singleton] at hb
    subst hb
    exact le_of_lt (hpast a ha)
  have hsorteq : (c ++ [(k, e)]).insertionSort
      (fun a b => a.2.timestamp ≤ b.2.timestamp) = c ++ [(k, e)] :=
    List.Sorted.insertionSort_eq hsortedc1
  have hnodup1 : ((c ++ [(k, e)]).map Prod.fst).Nodup := by
    rw [List.map_append]
    refine List.Nodup.append hnodup (by simp) ?_
    intro a ha hb
    obtain ⟨kv, hkv, rfl⟩ := List.mem_map.mp ha
    rw [List.map_singleton, List.mem_singleton] at hb
    exact hfresh kv hkv hb
  have hev : 100 ≤ c.length →
      cacheResult now c k v = c.drop 20 ++ [(k, e)] := by
    intro hbig
    have h20 : 20 ≤ c.length := by omega
    have htake : (c ++ [(k, e)]).take 20 = c.take 20 :=
      List.take_append_of_le_length h20
    have hsplit2 : c ++ [(k, e)] = c.take 20 ++ (c.drop 20 ++ [(k, e)]) := by
      rw [← List.append_assoc, List.take_append_drop]
    have hcond : 100 < (dictSet c k e).length := by
      rw [hset, List.length_append, List.length_singleton]
      omega
    have hfold : (c.take 20).foldl (fun acc kv => dictDel acc kv.1)
        (c.take 20 ++ (c.drop 20 ++ [(k, e)])) = c.drop 20 ++ [(k, e)] := by
      apply foldl_dictDel_front
      rw [← hsplit2]
      exact hnodup1
    show (if 100 < (dictSet c k e).length then _ else _) = _
    rw [if_pos hcond, hset, hsorteq, htake, hsplit2]
    exact hfold
  have hsmall : c.length < 100 → cacheResult now c k v = c ++ [(k, e)] := by
    intro hlt
    have hcond : ¬ 100 < (dictSet c k e).length := by
      rw [hset, List.length_append, List.length_singleton]
      omega
    show (if 100 < (dictSet c k e).length then _ else _) = _
    rw [if_neg hcond, hset]
  obtain ⟨pre, hres, hpre⟩ :
      ∃ pre, cacheResult now c k v = pre ++ [(k, e)] ∧ ∀ kv ∈ pre, kv.1 ≠ k := by
    by_cases hbig : 100 ≤ c.length
    · exact ⟨c.drop 20, hev hbig, fun kv hkv => hfresh kv (List.drop_subset 20 c hkv)⟩
    · exact ⟨c, hsmall (by omega), hfresh⟩
  have hfind : (pre ++ [(k, e)]).find? (fun kv => kv.1 = k) = some (k, e) := by
    rw [List.find?_append]
    have h1 : pre.find? (fun kv => decide (kv.1 = k)) = none := by
      rw [List.find?_eq_none]
      intro a ha
      simp [hpre a ha]
    rw [h1]
    simp [List.find?_cons]
  have hgetred : getFromCache t ttl (pre ++ [(k, e)]) k
      = if t - e.timestamp < ttl then (some e.data, pre ++ [(k, e)])
        else (none, dictDel (pre ++ [(k, e)]) k) := by
    unfold getFromCache
    rw [hfind]
  refine ⟨?_, ?_, fun h100 => (hev (by omega)).trans rfl⟩
  · intro ht
    rw [hres, hgetred]
    have hcond : t - e.timestamp < ttl := ht
    rw [if_pos hcond]
  · intro ht
    rw [hres, hgetred]
    have hcond : ¬ t - e.timestamp < ttl := not_lt.mpr ht
    rw [if_neg hcond]
    refine ⟨rfl, ?_⟩
    intro kv hkv
    unfold dictDel at hkv
    have := List.of_mem_filter hkv
    simpa using this

theorem cacheW_keys_nodup : (cacheW.map Prod.fst).Nodup := by
  have : cacheW.map Prod.fst = List.range 100 := by
    rw [cacheW, List.map_map]
    exact List.map_id (List.range 100)
  rw [this]
  exact List.nodup_range 100

theorem cacheW_fresh : ∀ kv ∈ cacheW, kv.1 ≠ 100 := by
  intro kv hkv
  obtain ⟨i, hi, rfl⟩ := List.mem_map.mp hkv
  rw [List.mem_range] at hi
  simpa using Nat.ne_of_lt hi

theorem cacheW_sorted :
    cacheW.Pairwise (fun a b => a.2.timestamp < b.2.timestamp) := by
  rw [cacheW, List.pairwise_map]
  refine (List.pairwise_lt_range 100).imp ?_
  intro a b h
  show ((a : ℕ) : ℚ) < ((b : ℕ) : ℚ)
  exact_mod_cast h

theorem cacheW_past : ∀ kv ∈ cacheW, kv.2.timestamp < 1000 := by
  intro kv hkv
  obtain ⟨i, hi, rfl⟩ := List.mem_map.mp hkv
  rw [List.mem_range] at hi
  show (i : ℚ) < 1000
  exact_mod_cast hi.trans (by norm_num)

/-- Witness for claim C4: against the concrete 100-entry cache, a fresh put
at time 1000 is readable right away within the one hour TTL, and is gone
when read 2 hours later. -/
theorem cache_ttl_and_eviction_witness :
    (getFromCache 1000 3600 (cacheResult 1000 cacheW 100 7) 100).1 = some 7
    ∧ (getFromCache 8200 3600 (cacheResult 1000 cacheW 100 7) 100).1 = none := by
  constructor
  · exact (cache_ttl_and_eviction cacheW 100 7 1000 3600 1000
      cacheW_keys_nodup cacheW_fresh cacheW_sorted cacheW_past).1 (by norm_num)
  · exact ((cache_ttl_and_eviction cacheW 100 7 1000 3600 8200
      cacheW_keys_nodup cacheW_fresh cacheW_sorted cacheW_past).2.1 (by norm_num)).1

theorem risk_scores_eq_specOrdinal (r : RiskLevel) : risk_scores r = specOrdinal r := by
  cases r <;> rfl

/-- Claim C6: for a nonempty list of analyses the overall risk level is the
re-bucketing of the mean ordinal rank at the stated boundaries, and the
levels low, medium, high average to 3 and resolve to medium. -/
theorem overall_risk_level_spec (analyses : List StockAnalysis)
    (h : analyses ≠ []) :
    calculateOverallRiskLevel analyses = specRebucket (specMeanOrdinal analyses)
    ∧ calculateOverallRiskLevel
        [mkRiskAnalysis .low, mkRiskAnalysis .medium, mkRiskAnalysis .high]
      = .medium := by
  constructor
  · have hne : analyses.isEmpty = false := by
      cases hs : analyses with
      | nil => exact absurd hs h
      | cons a l => simp [hs]
    unfold calculateOverallRiskLevel specRebucket specMeanOrdinal
    rw [hne]
    simp only [risk_scores_eq_specOrdinal, Bool.false_eq_true, if_false]
  · norm_num [calculateOverallRiskLevel, mkRiskAnalysis, risk_scores]

/-- Witness for claim C6: three analyses at low, medium and high re-bucket
to medium, through the general statement. -/
theorem overall_risk_level_spec_witness :
    calculateOverallRiskLevel
        [mkRiskAnalysis .low, mkRiskAnalysis .medium, mkRiskAnalysis .high]
      = .medium :=
  (overall_risk_level_spec [mkRiskAnalysis .low] (by simp)).2

theorem str_append_ne_empty (a b : String) (h : a ≠ "") : a ++ b ≠ "" := by
  intro hc
  apply h
  have hd : (a ++ b).data = ([] : List Char) := by rw [hc]
  rw [String.data_append] at hd
  have ha : a.data = [] := (List.append_eq_nil.mp hd).1
  cases a
  simp_all

/-- Claim C7: when the reasoning collaborator fails, the pipeline still
produces a StockAnalysis, with action hold, risk medium, confidence 0.3, no
target price, and nonempty narrative text in all four fields. -/
theorem fallback_on_reasoning_failure (symbol company_name msg : String)
    (llmResult : Except String FinancialAnalysisOutput)
    (hfail : llmResult = .error msg) :
    (buildStockAnalysis symbol company_name
        (performRagAnalysis llmResult symbol company_name)).recommendation_action
      = .hold
    ∧ (buildStockAnalysis symbol company_name
        (performRagAnalysis llmResult symbol company_name)).risk_level = .medium
    ∧ (buildStockAnalysis symbol company_name
        (performRagAnalysis llmResult symbol company_name)).confidence_score = 3/10
    ∧ (buildStockAnalysis symbol company_name
        (performRagAnalysis llmResult symbol company_name)).target_price = none
    ∧ (buildStockAnalysis symbol company_name
        (performRagAnalysis llmResult symbol company_name)).qualitative_analysis ≠ ""
    ∧ (buildStockAnalysis symbol company_name
        (performRagAnalysis llmResult symbol company_name)).quantitative_analysis ≠ ""
    ∧ (buildStockAnalysis symbol company_name
        (performRagAnalysis llmResult symbol company_name)).user_portfolio_fit ≠ ""
    ∧ (buildStockAnalysis symbol company_name
        (performRagAnalysis llmResult symbol company_name)).recommendation ≠ "" := by
  subst hfail
  refine ⟨rfl, rfl, rfl, rfl, ?_, ?_, ?_, ?_⟩
  · exact str_append_ne_empty _ _ (str_append_ne_empty _ _ (str_append_ne_empty _ _
      (str_append_ne_empty _ _ (by decide))))
  · exact str_append_ne_empty _ _ (str_append_ne_empty _ _ (by decide))
  · show ("This stock\x27s fit with your portfolio depends on your current holdings and diversification goals." : String) ≠ ""
    decide
  · exact str_append_ne_empty _ _ (str_append_ne_empty _ _ (by decide))

/-- Witness for claim C7 at a concrete failing reasoning call. -/
theorem fallback_on_reasoning_failure_witness :
    (buildStockAnalysis "AAPL" "Apple"
        (performRagAnalysis (Except.error "boom") "AAPL" "Apple")).recommendation_action
      = RecommendationAction.hold
    ∧ (buildStockAnalysis "AAPL" "Apple"
        (performRagAnalysis (Except.error "boom") "AAPL" "Apple")).confidence_score
      = 3/10 :=
  ⟨(fallback_on_reasoning_failure "AAPL" "Apple" "boom" (Except.error "boom") rfl).1,
   (fallback_on_reasoning_failure "AAPL" "Apple" "boom" (Except.error "boom") rfl).2.2.1⟩

/-- Claim C8: when the session messages are the prior conversation plus the
in-flight message, the history window the prompt is built from is exactly
the last five prior messages, a suffix of the prior conversation (hence
oldest first, in-flight excluded), and the rendered history is the fold of
those lines. -/
theorem chat_history_window (prior : List ChatMessage) (current : ChatMessage) :
    (recentMessagesArg (prior ++ [current])).dropLast = lastN 5 prior
    ∧ lastN 5 prior <:+ prior
    ∧ (lastN 5 prior).length ≤ 5
    ∧ conversationHistory (recentMessagesArg (prior ++ [current]))
      = ((lastN 5 prior).map historyLine).foldl (fun a b => a ++ b) "" := by
  have hk : (prior ++ [current]).length - 6 ≤ prior.length := by
    rw [List.length_append, List.length_singleton]
    omega
  have h1 : (recentMessagesArg (prior ++ [current])).dropLast = lastN 5 prior := by
    unfold recentMessagesArg lastN
    rw [List.drop_append_of_le_length hk, List.dropLast_concat]
    have h6 : (prior ++ [current]).length - 6 = prior.length - 5 := by
      rw [List.length_append, List.length_singleton]
      omega
    rw [h6]
  refine ⟨h1, List.drop_suffix _ _, ?_, ?_⟩
  · rw [lastN, List.length_drop]
    omega
  · unfold conversationHistory
    rw [h1]

theorem updateFirstStock_eq_none (stocks : List StockHolding) (sym : String)
    (f : StockHolding → StockHolding) (h : ∀ s ∈ stocks, s.symbol ≠ sym) :
    updateFirstStock stocks sym f = none := by
  induction stocks with
  | nil => rfl
  | cons a l ih =>
    unfold updateFirstStock
    rw [if_neg (h a (by simp))]
    rw [ih (fun s hs => h s (by simp [hs]))]

/-- Claim C9 counterexample: removing a symbol that the portfolio does not
hold does not surface NotFound; the call succeeds and returns a portfolio. -/
theorem remove_missing_symbol_succeeds :
    ¬ (removeStockFromPortfolio lookupW portW "MSFT" = none) := by
  unfold removeStockFromPortfolio
  simp

/-- Claim C9 as amended: updating a symbol that is not held surfaces
NotFound, but removing one silently succeeds as a revalued no-op. -/
theorem stock_not_found_spec (lookup : PriceLookup) (p : Portfolio) (sym : String)
    (u : StockHoldingUpdate) (h : ∀ s ∈ p.stocks, s.symbol ≠ sym) :
    updateStockInPortfolio lookup p sym u = none
    ∧ removeStockFromPortfolio lookup p sym
      = some (updatePortfolioValues lookup p) := by
  constructor
  · unfold updateStockInPortfolio
    rw [updateFirstStock_eq_none p.stocks sym _ h]
  · unfold removeStockFromPortfolio
    have hf : p.stocks.filter (fun s => s.symbol ≠ sym) = p.stocks :=
      List.filter_eq_self.mpr (fun a ha => by simp [h a ha])
    rw [hf]

/-- Witness for claim C9 as amended, at the concrete one-AAPL portfolio and
the missing symbol MSFT. -/
theorem stock_not_found_spec_witness :
    updateStockInPortfolio lookupW portW "MSFT" updW = none
    ∧ removeStockFromPortfolio lookupW portW "MSFT"
      = some (updatePortfolioValues lookupW portW) :=
  stock_not_found_spec lookupW portW "MSFT" updW (by
    intro s hs
    have : s = holdingW := by simpa [portW] using hs
    subst this
    decide)

/-- Witness for claim C8: with two prior messages and an in-flight third,
the history window is exactly the two prior messages. -/
theorem chat_history_window_witness :
    (recentMessagesArg ([msgA, msgB] ++ [msgC])).dropLast = [msgA, msgB] :=
  (chat_history_window [msgA, msgB] msgC).1

theorem roundHalfToEven_of_lt (q : ℚ) (F : ℤ) (hf : ⌊q⌋ = F) (h : q - (F : ℚ) < 1/2) :
    roundHalfToEven q = F := by
  unfold roundHalfToEven
  rw [hf, if_pos h]

theorem roundHalfToEven_of_gt (q : ℚ) (F : ℤ) (hf : ⌊q⌋ = F) (h : 1/2 < q - (F : ℚ)) :
    roundHalfToEven q = F + 1 := by
  unfold roundHalfToEven
  rw [hf, if_neg (by linarith), if_pos h]

theorem decRound28_eval (q : ℚ) (e : ℕ) (M : ℤ) (hq : 0 < q)
    (hlow : (10 : ℚ) ^ e ≤ q) (hhigh : q < 10 ^ (e + 1)) (he : e ≤ 27)
    (hround : roundHalfToEven (q * 10 ^ (27 - e)) = M) :
    decRound28 q = (M : ℚ) / 10 ^ (27 - e) := by
  have h1q : (1 : ℚ) ≤ q := le_trans (one_le_pow₀ (by norm_num)) hlow
  have hlog : Int.log 10 q = e := by
    rw [Int.log_of_one_le_right 10 h1q]
    have hfl : 10 ^ e ≤ ⌊q⌋₊ := Nat.le_floor (by exact_mod_cast hlow)
    have hfh : ⌊q⌋₊ < 10 ^ (e + 1) :=
      (Nat.floor_lt (le_of_lt hq)).mpr (by exact_mod_cast hhigh)
    exact_mod_cast Nat.log_eq_of_pow_le_of_lt_pow hfl hfh
  unfold decRound28
  rw [if_neg (ne_of_gt hq), if_neg (not_lt.mpr (le_of_lt hq)), hlog]
  have hexp : (27 : ℤ) - (e : ℤ) = ((27 - e : ℕ) : ℤ) := by omega
  rw [hexp, zpow_natCast, hround]

theorem decRound28_int_eval (n e : ℕ) (hn : 0 < n)
    (hlow : 10 ^ e ≤ n) (hhigh : n < 10 ^ (e + 1)) (he : e ≤ 27) :
    decRound28 (n : ℚ) = (n : ℚ) := by
  have hq : (0 : ℚ) < n := by exact_mod_cast hn
  have hround : roundHalfToEven ((n : ℚ) * 10 ^ (27 - e))
      = (n : ℤ) * 10 ^ (27 - e) := by
    have harg : (n : ℚ) * 10 ^ (27 - e) = (((n : ℤ) * 10 ^ (27 - e) : ℤ) : ℚ) := by
      push_cast
      ring
    rw [harg]
    refine roundHalfToEven_of_lt _ _ (Int.floor_intCast _) ?_
    norm_num
  have h := decRound28_eval (n : ℚ) e ((n : ℤ) * 10 ^ (27 - e)) hq
    (by exact_mod_cast hlow) (by exact_mod_cast hhigh) he hround
  rw [h]
  push_cast
  rw [mul_div_assoc, div_self (by positivity : ((10 : ℚ) ^ (27 - e)) ≠ 0), mul_one]

theorem decRound28_num (c e : ℕ) (q : ℚ) (hqc : q = (c : ℚ)) (hn : 0 < c)
    (hlow : 10 ^ e ≤ c) (hhigh : c < 10 ^ (e + 1)) (he : e ≤ 27) :
    decRound28 q = (c : ℚ) := by
  rw [hqc, decRound28_int_eval c e hn hlow hhigh he]

theorem dec_add_10_2 : decAdd (10 : ℚ) 2 = 12 := by
  unfold decAdd
  rw [decRound28_num 12 1 ((10 : ℚ) + 2) (by norm_num) (by norm_num) (by norm_num)
    (by norm_num) (by norm_num)]
  norm_num

theorem dec_add_12_3 : decAdd (12 : ℚ) 3 = 15 := by
  unfold decAdd
  rw [decRound28_num 15 1 ((12 : ℚ) + 3) (by norm_num) (by norm_num) (by norm_num)
    (by norm_num) (by norm_num)]
  norm_num

theorem dec_add_10_3 : decAdd (10 : ℚ) 3 = 13 := by
  unfold decAdd
  rw [decRound28_num 13 1 ((10 : ℚ) + 3) (by norm_num) (by norm_num) (by norm_num)
    (by norm_num) (by norm_num)]
  norm_num

theorem dec_add_13_2 : decAdd (13 : ℚ) 2 = 15 := by
  unfold decAdd
  rw [decRound28_num 15 1 ((13 : ℚ) + 2) (by norm_num) (by norm_num) (by norm_num)
    (by norm_num) (by norm_num)]
  norm_num

theorem dec_mul_10_10 : decMul (10 : ℚ) 10 = 100 := by
  unfold decMul
  rw [decRound28_num 100 2 ((10 : ℚ) * 10) (by norm_num) (by norm_num) (by norm_num)
    (by norm_num) (by norm_num)]
  norm_num

theorem dec_mul_2_20 : decMul (2 : ℚ) 20 = 40 := by
  unfold decMul
  rw [decRound28_num 40 1 ((2 : ℚ) * 20) (by norm_num) (by norm_num) (by norm_num)
    (by norm_num) (by norm_num)]
  norm_num

theorem dec_mul_3_30 : decMul (3 : ℚ) 30 = 90 := by
  unfold decMul
  rw [decRound28_num 90 1 ((3 : ℚ) * 30) (by norm_num) (by norm_num) (by norm_num)
    (by norm_num) (by norm_num)]
  norm_num

theorem dec_add_100_40 : decAdd (100 : ℚ) 40 = 140 := by
  unfold decAdd
  rw [decRound28_num 140 2 ((100 : ℚ) + 40) (by norm_num) (by norm_num) (by norm_num)
    (by norm_num) (by norm_num)]
  norm_num

theorem dec_add_140_90 : decAdd (140 : ℚ) 90 = 230 := by
  unfold decAdd
  rw [decRound28_num 230 2 ((140 : ℚ) + 90) (by norm_num) (by norm_num) (by norm_num)
    (by norm_num) (by norm_num)]
  norm_num

theorem dec_add_100_90 : decAdd (100 : ℚ) 90 = 190 := by
  unfold decAdd
  rw [decRound28_num 190 2 ((100 : ℚ) + 90) (by norm_num) (by norm_num) (by norm_num)
    (by norm_num) (by norm_num)]
  norm_num

theorem dec_div_140_12 :
    decDiv (140 : ℚ) 12 = 1166666666666666666666666667 / 10 ^ 26 := by
  unfold decDiv
  have hfl : ⌊((140 : ℚ) / 12) * 10 ^ (27 - 1)⌋ = 1166666666666666666666666666 :=
    Int.floor_eq_iff.mpr ⟨by norm_num, by norm_num⟩
  have hr := roundHalfToEven_of_gt _ _ hfl (by norm_num)
  have h := decRound28_eval ((140 : ℚ) / 12) 1 (1166666666666666666666666666 + 1)
    (by norm_num) (by norm_num) (by norm_num) (by norm_num) hr
  rw [h]
  norm_num

theorem dec_div_230_15 :
    decDiv (230 : ℚ) 15 = 1533333333333333333333333333 / 10 ^ 26 := by
  unfold decDiv
  have hfl : ⌊((230 : ℚ) / 15) * 10 ^ (27 - 1)⌋ = 1533333333333333333333333333 :=
    Int.floor_eq_iff.mpr ⟨by norm_num, by norm_num⟩
  have hr := roundHalfToEven_of_lt _ _ hfl (by norm_num)
  have h := decRound28_eval ((230 : ℚ) / 15) 1 1533333333333333333333333333
    (by norm_num) (by norm_num) (by norm_num) (by norm_num) hr
  rw [h]
  norm_num

theorem dec_div_190_13 :
    decDiv (190 : ℚ) 13 = 1461538461538461538461538462 / 10 ^ 26 := by
  unfold decDiv
  have hfl : ⌊((190 : ℚ) / 13) * 10 ^ (27 - 1)⌋ = 1461538461538461538461538461 :=
    Int.floor_eq_iff.mpr ⟨by norm_num, by norm_num⟩
  have hr := roundHalfToEven_of_gt _ _ hfl (by norm_num)
  have h := decRound28_eval ((190 : ℚ) / 13) 1 (1461538461538461538461538461 + 1)
    (by norm_num) (by norm_num) (by norm_num) (by norm_num) hr
  rw [h]
  norm_num

theorem dec_mul_12_P1 :
    decMul (12 : ℚ) (1166666666666666666666666667 / 10 ^ 26) = 140 := by
  unfold decMul
  have hfl : ⌊((12 : ℚ) * (1166666666666666666666666667 / 10 ^ 26)) * 10 ^ (27 - 2)⌋
      = 1400000000000000000000000000 :=
    Int.floor_eq_iff.mpr ⟨by norm_num, by norm_num⟩
  have hr := roundHalfToEven_of_lt _ _ hfl (by norm_num)
  have h := decRound28_eval ((12 : ℚ) * (1166666666666666666666666667 / 10 ^ 26)) 2
    1400000000000000000000000000
    (by norm_num) (by norm_num) (by norm_num) (by norm_num) hr
  rw [h]
  norm_num

theorem dec_mul_13_PB1 :
    decMul (13 : ℚ) (1461538461538461538461538462 / 10 ^ 26)
      = 1900000000000000000000000001 / 10 ^ 25 := by
  unfold decMul
  have hfl : ⌊((13 : ℚ) * (1461538461538461538461538462 / 10 ^ 26)) * 10 ^ (27 - 2)⌋
      = 1900000000000000000000000000 :=
    Int.floor_eq_iff.mpr ⟨by norm_num, by norm_num⟩
  have hr := roundHalfToEven_of_gt _ _ hfl (by norm_num)
  have h := decRound28_eval ((13 : ℚ) * (1461538461538461538461538462 / 10 ^ 26)) 2
    (1900000000000000000000000000 + 1)
    (by norm_num) (by norm_num) (by norm_num) (by norm_num) hr
  rw [h]
  norm_num

theorem dec_add_X_40 :
    decAdd ((1900000000000000000000000001 : ℚ) / 10 ^ 25) 40
      = 2300000000000000000000000001 / 10 ^ 25 := by
  unfold decAdd
  have hfl : ⌊(((1900000000000000000000000001 : ℚ) / 10 ^ 25) + 40) * 10 ^ (27 - 2)⌋
      = 2300000000000000000000000001 :=
    Int.floor_eq_iff.mpr ⟨by norm_num, by norm_num⟩
  have hr := roundHalfToEven_of_lt _ _ hfl (by norm_num)
  have h := decRound28_eval (((1900000000000000000000000001 : ℚ) / 10 ^ 25) + 40) 2
    2300000000000000000000000001
    (by norm_num) (by norm_num) (by norm_num) (by norm_num) hr
  rw [h]
  norm_num

theorem dec_div_S_15 :
    decDiv ((2300000000000000000000000001 : ℚ) / 10 ^ 25) 15
      = 1533333333333333333333333334 / 10 ^ 26 := by
  unfold decDiv
  have hfl : ⌊(((2300000000000000000000000001 : ℚ) / 10 ^ 25) / 15) * 10 ^ (27 - 1)⌋
      = 1533333333333333333333333334 :=
    Int.floor_eq_iff.mpr ⟨by norm_num, by norm_num⟩
  have hr := roundHalfToEven_of_lt _ _ hfl (by norm_num)
  have h := decRound28_eval (((2300000000000000000000000001 : ℚ) / 10 ^ 25) / 15) 1
    1533333333333333333333333334
    (by norm_num) (by norm_num) (by norm_num) (by norm_num) hr
  rw [h]
  norm_num

theorem mergeA_shares :
    (revalueHolding lookupW (mergeHolding holdingW
      (mkNewHolding sectW lookupW aLot))).shares = 12 := by
  rw [revalueHolding_shares, mergeHolding_shares, mkNewHolding_shares]
  show decAdd (10 : ℚ) 2 = 12
  exact dec_add_10_2

theorem mergeA_price :
    (revalueHolding lookupW (mergeHolding holdingW
      (mkNewHolding sectW lookupW aLot))).purchase_price
    = 1166666666666666666666666667 / 10 ^ 26 := by
  rw [revalueHolding_purchase_price, mergeHolding_purchase_price,
    mkNewHolding_shares, mkNewHolding_purchase_price]
  show decDiv (decAdd (decMul (10 : ℚ) 10) (decMul (2 : ℚ) 20)) (decAdd (10 : ℚ) 2)
    = 1166666666666666666666666667 / 10 ^ 26
  rw [dec_mul_10_10, dec_mul_2_20, dec_add_100_40, dec_add_10_2, dec_div_140_12]

theorem mergeB_shares :
    (revalueHolding lookupW (mergeHolding holdingW
      (mkNewHolding sectW lookupW bLot))).shares = 13 := by
  rw [revalueHolding_shares, mergeHolding_shares, mkNewHolding_shares]
  show decAdd (10 : ℚ) 3 = 13
  exact dec_add_10_3

theorem mergeB_price :
    (revalueHolding lookupW (mergeHolding holdingW
      (mkNewHolding sectW lookupW bLot))).purchase_price
    = 1461538461538461538461538462 / 10 ^ 26 := by
  rw [revalueHolding_purchase_price, mergeHolding_purchase_price,
    mkNewHolding_shares, mkNewHolding_purchase_price]
  show decDiv (decAdd (decMul (10 : ℚ) 10) (decMul (3 : ℚ) 30)) (decAdd (10 : ℚ) 3)
    = 1461538461538461538461538462 / 10 ^ 26
  rw [dec_mul_10_10, dec_mul_3_30, dec_add_100_90, dec_add_10_3, dec_div_190_13]

theorem addStockW_stocks (lot : NewLot) (hsym : lot.symbol = "AAPL") :
    (addStockToPortfolio sectW lookupW portW lot).stocks
    = [revalueHolding lookupW (mergeHolding holdingW
        (mkNewHolding sectW lookupW lot))] := by
  have h1 := addStock_stocks sectW lookupW portW lot [] [] holdingW rfl
    (by simp) (by rw [hsym]; rfl)
  simpa using h1

theorem addStockW_twice_find (x y : NewLot) (hx : x.symbol = "AAPL")
    (hy : y.symbol = "AAPL") :
    findHolding (addStockToPortfolio sectW lookupW
        (addStockToPortfolio sectW lookupW portW x) y).stocks "AAPL"
    = some (revalueHolding lookupW (mergeHolding
        (revalueHolding lookupW (mergeHolding holdingW
          (mkNewHolding sectW lookupW x)))
        (mkNewHolding sectW lookupW y))) := by
  have hsymx : (revalueHolding lookupW (mergeHolding holdingW
      (mkNewHolding sectW lookupW x))).symbol = y.symbol := by
    rw [revalueHolding_symbol, mergeHolding_symbol, hy]
    rfl
  have h2 := addStock_stocks sectW lookupW (addStockToPortfolio sectW lookupW portW x) y
    [] [] (revalueHolding lookupW (mergeHolding holdingW (mkNewHolding sectW lookupW x)))
    (addStockW_stocks x hx) (by simp) hsymx
  have hstocks : (addStockToPortfolio sectW lookupW
      (addStockToPortfolio sectW lookupW portW x) y).stocks
      = [revalueHolding lookupW (mergeHolding
          (revalueHolding lookupW (mergeHolding holdingW
            (mkNewHolding sectW lookupW x)))
          (mkNewHolding sectW lookupW y))] := by
    simpa using h2
  rw [hstocks]
  have hsym2 : (revalueHolding lookupW (mergeHolding
      (revalueHolding lookupW (mergeHolding holdingW
        (mkNewHolding sectW lookupW x)))
      (mkNewHolding sectW lookupW y))).symbol = "AAPL" := by
    rw [revalueHolding_symbol, mergeHolding_symbol, revalueHolding_symbol,
      mergeHolding_symbol]
    rfl
  exact findHolding_split [] [] _ "AAPL" (by simp) hsym2

/-- Claim C3 (failing behaviour): the average-cost merge stores the 28
significant digit rounded quotient of the Decimal context, not the exact
share weighted average, and merging the two witness lots in the two orders
stores different purchase prices, so the exactness and order independence
the claim asserts fail on the code (shares do merge to the sum). -/
theorem add_stock_merge_decimal_rounding :
    ((findHolding (addStockToPortfolio sectW lookupW portW aLot).stocks "AAPL").map
        (fun m => (m.shares, m.purchase_price))
      = some (12, 1166666666666666666666666667 / 10 ^ 26))
    ∧ ((1166666666666666666666666667 : ℚ) / 10 ^ 26
        ≠ (holdingW.shares * holdingW.purchase_price
            + aLot.shares * aLot.purchase_price)
            / (holdingW.shares + aLot.shares))
    ∧ ((findHolding (addStockToPortfolio sectW lookupW
          (addStockToPortfolio sectW lookupW portW aLot) bLot).stocks "AAPL").map
        (fun m => (m.shares, m.purchase_price))
      = some (15, 1533333333333333333333333333 / 10 ^ 26))
    ∧ ((findHolding (addStockToPortfolio sectW lookupW
          (addStockToPortfolio sectW lookupW portW bLot) aLot).stocks "AAPL").map
        (fun m => (m.shares, m.purchase_price))
      = some (15, 1533333333333333333333333334 / 10 ^ 26))
    ∧ ((1533333333333333333333333333 : ℚ) / 10 ^ 26
        ≠ 1533333333333333333333333334 / 10 ^ 26) := by
  refine ⟨?_, ?_, ?_, ?_, ?_⟩
  · have hfind : findHolding (addStockToPortfolio sectW lookupW portW aLot).stocks "AAPL"
        = some (revalueHolding lookupW (mergeHolding holdingW
            (mkNewHolding sectW lookupW aLot))) := by
      rw [addStockW_stocks aLot rfl]
      refine findHolding_split [] [] _ "AAPL" (by simp) ?_
      rw [revalueHolding_symbol, mergeHolding_symbol]
      rfl
    rw [hfind, Option.map_some', mergeA_shares, mergeA_price]
  · norm_num [holdingW, aLot]
  · rw [addStockW_twice_find aLot bLot rfl rfl, Option.map_some',
      revalueHolding_shares, revalueHolding_purchase_price,
      mergeHolding_shares, mergeHolding_purchase_price,
      mkNewHolding_shares, mkNewHolding_purchase_price,
      mergeA_shares, mergeA_price]
    show some (decAdd (12 : ℚ) 3,
        decDiv (decAdd (decMul (12 : ℚ) (1166666666666666666666666667 / 10 ^ 26))
            (decMul (3 : ℚ) 30))
          (decAdd (12 : ℚ) 3))
      = some ((15 : ℚ), 1533333333333333333333333333 / 10 ^ 26)
    rw [dec_add_12_3, dec_mul_12_P1, dec_mul_3_30, dec_add_140_90, dec_div_230_15]
  · rw [addStockW_twice_find bLot aLot rfl rfl, Option.map_some',
      revalueHolding_shares, revalueHolding_purchase_price,
      mergeHolding_shares, mergeHolding_purchase_price,
      mkNewHolding_shares, mkNewHolding_purchase_price,
      mergeB_shares, mergeB_price]
    show some (decAdd (13 : ℚ) 2,
        decDiv (decAdd (decMul (13 : ℚ) (1461538461538461538461538462 / 10 ^ 26))
            (decMul (2 : ℚ) 20))
          (decAdd (13 : ℚ) 2))
      = some ((15 : ℚ), 1533333333333333333333333334 / 10 ^ 26)
    rw [dec_add_13_2, dec_mul_13_PB1, dec_mul_2_20, dec_add_X_40, dec_div_S_15]
  · norm_num
